import Mathlib

/-!
# Shallow embedding of `src/task_manager.py` (task-manager-cli)

This file embeds the core logic of the repository's `src/task_manager.py`
into Lean 4 and proves properties of the embedded definitions.

Modelling conventions:
* Python strings are `String`; `None`-able parameters are `Option _`.
* `datetime.now().isoformat()` is an external effect; every function that
  reads the clock takes the current timestamp as an explicit parameter
  (`now : String` for the stored ISO strings, `now : Int` for the
  comparable instant used by `is_overdue`).
* `dateutil.parser.parse` is an external library; `is_overdue` takes an
  abstract parse function `String → Option Int` (`none` = parse failure,
  which the Python code catches as `ValueError`/`TypeError`).
* Python `dict`s flowing through `to_dict`/`from_dict`/JSON are modelled
  as association lists `List (String × Value)` over a small JSON-like
  value type.  The embedding of `from_dict` restricts attention to
  schema-conformant values (a non-string where Python would call
  `.strip()` raises `AttributeError` at runtime; this is folded into the
  error result).
* Raising an exception is an `Except Err _` result; functions that cannot
  fail return plainly.
* `TaskManager._save_tasks` writes the whole in-memory state to disk; it
  is modelled by `TaskManager.save_data`, which produces the document
  that would be serialized.  Mutating operations additionally return a
  `Bool` recording whether the Python code reached a `_save_tasks()`
  call, so "performs no persistence" is expressible.
-/

namespace TaskCli

/-- JSON-like values stored in the flat task mapping. -/
inductive Value where
  | vNull : Value
  | vInt (n : Int) : Value
  | vStr (s : String) : Value
deriving DecidableEq, Repr

/-- Exceptions raised by the embedded code.
`validationError` is the `ValueError("Task title cannot be empty")` of
`Task.__init__`; `parseError` is `json.JSONDecodeError`; `keyError` and
`typeError` are the `KeyError`/`AttributeError`-style failures a
malformed mapping would trigger inside `Task.from_dict`. -/
inductive Err where
  | validationError : Err
  | parseError : Err
  | keyError : Err
  | typeError : Err
deriving DecidableEq, Repr

/-- Fields of the `Task` record, in the order `Task.__init__` assigns them. -/
structure Task where
  title : String
  description : String
  priority : String
  status : String
  due_date : Option String
  task_id : Option Int
  created_at : String
  updated_at : String
deriving DecidableEq, Repr

/-- Python `str.strip()`: drop leading and trailing whitespace.  Defined
over the character list so that it computes by kernel reduction
(`String.trim`'s `Substring` helpers do not). -/
def pyStrip (s : String) : String :=
  ⟨((s.data.dropWhile Char.isWhitespace).reverse.dropWhile
      Char.isWhitespace).reverse⟩

/-- Embeds `Task.__init__`: rejects a title that is empty after stripping
(`if not title or not title.strip()` is equivalent to
`title.strip() == ""`), strips title and description, and sets
`created_at = updated_at = datetime.now().isoformat()` (passed as `now`). -/
def Task.init (now : String) (title : String) (description : String := "")
    (priority : String := "medium") (status : String := "todo")
    (due_date : Option String := none) (task_id : Option Int := none) :
    Except Err Task :=
  if pyStrip title = "" then
    .error .validationError
  else
    .ok { title := pyStrip title
          description := pyStrip description
          priority := priority
          status := status
          due_date := due_date
          task_id := task_id
          created_at := now
          updated_at := now }

/-- Embeds `Task.to_dict`: the flat mapping, keys in source order. -/
def Task.to_dict (t : Task) : List (String × Value) :=
  [ ("task_id", match t.task_id with | none => .vNull | some n => .vInt n)
  , ("title", .vStr t.title)
  , ("description", .vStr t.description)
  , ("priority", .vStr t.priority)
  , ("status", .vStr t.status)
  , ("due_date", match t.due_date with | none => .vNull | some s => .vStr s)
  , ("created_at", .vStr t.created_at)
  , ("updated_at", .vStr t.updated_at) ]

/-- Python `data.get(k)`: `none` when the key is absent. -/
def dget (d : List (String × Value)) (k : String) : Option Value :=
  (d.find? (fun p => p.1 == k)).map (fun p => p.2)

/-- Python `data[k]` followed by `.strip()`-style string use: the key must be
present and hold a string. -/
def getStr (d : List (String × Value)) (k : String) : Except Err String :=
  match dget d k with
  | none => .error .keyError
  | some (.vStr s) => .ok s
  | some _ => .error .typeError

/-- Python `data.get(k, default)` where the value is used as a string. -/
def getStrD (d : List (String × Value)) (k : String) (dflt : String) :
    Except Err String :=
  match dget d k with
  | none => .ok dflt
  | some (.vStr s) => .ok s
  | some _ => .error .typeError

/-- Python `data.get(k)` where the value is an optional string (`null` and a
missing key both read back as `None`). -/
def getOptStr (d : List (String × Value)) (k : String) :
    Except Err (Option String) :=
  match dget d k with
  | none => .ok none
  | some .vNull => .ok none
  | some (.vStr s) => .ok (some s)
  | some _ => .error .typeError

/-- Python `data.get(k)` where the value is an optional integer. -/
def getOptInt (d : List (String × Value)) (k : String) :
    Except Err (Option Int) :=
  match dget d k with
  | none => .ok none
  | some .vNull => .ok none
  | some (.vInt n) => .ok (some n)
  | some _ => .error .typeError

/-- Embeds `Task.from_dict`: builds the task through the constructor (so the
title check and the stripping run again, and absent optional keys take
the constructor defaults), then overwrites `created_at`/`updated_at`
with any values present in the mapping. -/
def Task.from_dict (now : String) (d : List (String × Value)) :
    Except Err Task := do
  let title ← getStr d "title"
  let description ← getStrD d "description" ""
  let priority ← getStrD d "priority" "medium"
  let status ← getStrD d "status" "todo"
  let due_date ← getOptStr d "due_date"
  let task_id ← getOptInt d "task_id"
  let t ← Task.init now title description priority status due_date task_id
  let created_at ← getStrD d "created_at" t.created_at
  let updated_at ← getStrD d "updated_at" t.updated_at
  .ok { t with created_at := created_at, updated_at := updated_at }

/-- Embeds `Task.is_overdue`: the guard `if not self.due_date` is true for `None` and for
the empty string; a parse failure returns `False`; otherwise overdue iff
the parsed due date is strictly before now and the status is not
`completed`. -/
def Task.is_overdue (parse : String → Option Int) (now : Int) (t : Task) :
    Bool :=
  match t.due_date with
  | none => false
  | some s =>
    if s = "" then false
    else
      match parse s with
      | none => false
      | some due => decide (due < now) && decide (t.status ≠ "completed")

/-- The `TaskManager` in-memory state: the ordered task list and the id
counter (`self.tasks`, `self.next_id`). -/
structure TaskManager where
  tasks : List Task
  next_id : Int
deriving DecidableEq, Repr

/-- The state `TaskManager.__init__` sets up before `_load_tasks` runs
(`tasks = []`, `next_id = 1`). -/
def emptyManager : TaskManager := { tasks := [], next_id := 1 }

/-- The document `_save_tasks` serializes: every task through `to_dict`
plus `next_id`.  (`next_id` is `Option` because `_load_tasks` reads it
with `data.get("next_id", 1)`; `_save_tasks` always writes it.) -/
structure SaveData where
  tasks : List (List (String × Value))
  next_id : Option Int
deriving DecidableEq, Repr

/-- Embeds `TaskManager._save_tasks`: the document written to the backing file. -/
def TaskManager.save_data (m : TaskManager) : SaveData :=
  { tasks := m.tasks.map Task.to_dict, next_id := some m.next_id }

/-- The list comprehension `[Task.from_dict(td) for td in data["tasks"]]`:
deserialize in order, propagating the first failure. -/
def loadTasks (now : String) :
    List (List (String × Value)) → Except Err (List Task)
  | [] => .ok []
  | d :: ds => do
      let t ← Task.from_dict now d
      let ts ← loadTasks now ds
      .ok (t :: ts)

/-- The body of `TaskManager._load_tasks` on a well-formed document:
deserialize every task mapping and read `next_id` with default 1. -/
def SaveData.load (now : String) (d : SaveData) : Except Err TaskManager := do
  let ts ← loadTasks now d.tasks
  .ok { tasks := ts, next_id := d.next_id.getD 1 }

/-- The backing file as `_load_tasks` observes it: absent, present but
not well-formed JSON (`json.load` raises `JSONDecodeError`), or present
and well-formed with the document's contents. -/
inductive FileContent where
  | missing : FileContent
  | malformed : FileContent
  | wellFormed (d : SaveData) : FileContent
deriving Repr

/-- Embeds `TaskManager.__init__` plus `_load_tasks`: start from the empty state;
a missing file keeps it; a JSON parse failure re-raises; a well-formed
document is loaded. -/
def TaskManager.init (now : String) (file : FileContent) :
    Except Err TaskManager :=
  match file with
  | .missing => .ok emptyManager
  | .malformed => .error .parseError
  | .wellFormed d => d.load now

/-- Embeds `TaskManager.add_task`: construct with `task_id = next_id`, append,
increment `next_id` by one.  (`_save_tasks` is reached exactly when
construction succeeds, so no saved-flag is needed here.) -/
def TaskManager.add_task (now : String) (m : TaskManager) (title : String)
    (description : String := "") (priority : String := "medium")
    (due_date : Option String := none) : Except Err (Task × TaskManager) :=
  match Task.init now title description priority "todo" due_date
      (some m.next_id) with
  | .error e => .error e
  | .ok t =>
      .ok (t, { tasks := m.tasks ++ [t], next_id := m.next_id + 1 })

/-- Embeds `TaskManager.get_task`: linear scan, first task whose id matches. -/
def TaskManager.get_task (m : TaskManager) (task_id : Int) : Option Task :=
  m.tasks.find? (fun t => t.task_id == some task_id)

/-- The field assignments of `update_task` on the found task: each
provided argument overwrites the field (title and description stripped),
then `updated_at` is refreshed. -/
def applyUpdate (now : String) (title description priority status :
    Option String) (due_date : Option String) (t : Task) : Task :=
  let t := match title with
    | some s => { t with title := pyStrip s }
    | none => t
  let t := match description with
    | some s => { t with description := pyStrip s }
    | none => t
  let t := match priority with
    | some s => { t with priority := s }
    | none => t
  let t := match status with
    | some s => { t with status := s }
    | none => t
  let t := match due_date with
    | some s => { t with due_date := some s }
    | none => t
  { t with updated_at := now }

/-- Replace the first list element satisfying `p` by its image under
`f` (the Python code mutates the single object `get_task` returned). -/
def updateFirst (p : Task → Bool) (f : Task → Task) : List Task → List Task
  | [] => []
  | t :: ts => if p t then f t :: ts else t :: updateFirst p f ts

/-- Embeds `TaskManager.update_task`: returns (result, new state, saved?).
A missing id returns `False` without touching state or disk; otherwise
the first matching task is updated in place, `_save_tasks` runs, and the
call returns `True`. -/
def TaskManager.update_task (now : String) (m : TaskManager) (task_id : Int)
    (title : Option String := none) (description : Option String := none)
    (priority : Option String := none) (status : Option String := none)
    (due_date : Option String := none) : Bool × TaskManager × Bool :=
  match m.get_task task_id with
  | none => (false, m, false)
  | some _ =>
      let f := applyUpdate now title description priority status due_date
      let ts := updateFirst (fun t => t.task_id == some task_id) f m.tasks
      (true, { m with tasks := ts }, true)

/-- Embeds `TaskManager.delete_task`: returns (result, new state, saved?).
`self.tasks.remove(task)` removes the object `get_task` found, i.e. the
first task with the matching id. -/
def TaskManager.delete_task (m : TaskManager) (task_id : Int) :
    Bool × TaskManager × Bool :=
  match m.get_task task_id with
  | none => (false, m, false)
  | some _ =>
      (true,
       { m with tasks := m.tasks.eraseP (fun t => t.task_id == some task_id) },
       true)

/-- Embeds `TaskManager.list_tasks`: the guards `if status:` / `if priority:` are Python
truthiness tests, false for `None` and for the empty string, so an
empty-string filter is skipped exactly like an omitted one. -/
def TaskManager.list_tasks (m : TaskManager)
    (status : Option String := none) (priority : Option String := none) :
    List Task :=
  let ft := m.tasks
  let ft := match status with
    | some s => if s = "" then ft else ft.filter (fun t => t.status == s)
    | none => ft
  match priority with
  | some p => if p = "" then ft else ft.filter (fun t => t.priority == p)
  | none => ft

/-- Embeds `TaskManager.get_overdue_tasks`: the overdue subset in order. -/
def TaskManager.get_overdue_tasks (parse : String → Option Int) (now : Int)
    (m : TaskManager) : List Task :=
  m.tasks.filter (Task.is_overdue parse now)

/-- Every id carried by a task is strictly below `next_id`.  This holds
for the empty state and is preserved by every operation; it is what
makes deleted ids unreachable for later adds. -/
def goodIds (m : TaskManager) : Bool :=
  m.tasks.all (fun t => match t.task_id with
    | none => true
    | some i => decide (i < m.next_id))

/-- Sequentially add a list of titles (defaults for the other fields),
stopping at the first validation failure. -/
def TaskManager.addAll (now : String) (m : TaskManager) :
    List String → Except Err TaskManager
  | [] => .ok m
  | s :: rest => do
      let (_, m') ← m.add_task now s
      m'.addAll now rest

/-- The C3 counterexample store, reached through the public operations:
add a task, then blank its title through the update path (which does not
re-run the title validation). -/
def blankedTitleStore : TaskManager :=
  match emptyManager.add_task "t0" "groceries" with
  | .ok (_, m) => (m.update_task "t1" 1 (some "   ")).2.1
  | .error _ => emptyManager

/-- A store holding a task whose title is not strip-fixed.  Not reachable
through the API (every write strips), but a legal in-memory state. -/
def untrimmedTitleStore : TaskManager :=
  { tasks := [{ title := " a ", description := "", priority := "medium",
                status := "todo", due_date := none, task_id := some 1,
                created_at := "c", updated_at := "c" }],
    next_id := 2 }

/-! ## Helper lemmas -/

/-- Stripping the empty string gives the empty string. -/
theorem pyStrip_empty : pyStrip "" = "" := rfl

/-- Decompose a list around its first element satisfying `p`,
characterising `find?`, `updateFirst` and `eraseP` at once. -/
theorem firstMatch_decomp (p : Task → Bool) (f : Task → Task) :
    ∀ l : List Task, (∃ t ∈ l, p t = true) →
      ∃ pre t post, l = pre ++ t :: post ∧ (∀ u ∈ pre, p u = false) ∧
        p t = true ∧ l.find? p = some t ∧
        updateFirst p f l = pre ++ f t :: post ∧
        l.eraseP p = pre ++ post := by
  intro l
  induction l with
  | nil =>
      rintro ⟨t, ht, -⟩
      cases ht
  | cons a l ih =>
      rintro ⟨t, ht, hp⟩
      by_cases ha : p a = true
      · exact ⟨[], a, l, rfl, by simp, ha, List.find?_cons_of_pos _ ha,
          by simp [updateFirst, ha], List.eraseP_cons_of_pos ha⟩
      · have ha' : p a = false := by
          simpa using ha
        have hex : ∃ t ∈ l, p t = true := by
          rcases List.mem_cons.mp ht with rfl | hmem
          · exact absurd hp ha
          · exact ⟨t, hmem, hp⟩
        rcases ih hex with ⟨pre, u, post, hl, hpre, hu, hfind, hupd, herase⟩
        refine ⟨a :: pre, u, post, by simp [hl], ?_, hu, ?_, ?_, ?_⟩
        · intro v hv
          rcases List.mem_cons.mp hv with rfl | hv
          · exact ha'
          · exact hpre v hv
        · rw [List.find?_cons_of_neg _ ha]
          exact hfind
        · simp [updateFirst, ha', hupd]
        · rw [List.eraseP_cons_of_neg ha]
          simp [herase]

/-- The net effect of `update_task`'s field assignments on the found
task, as a single record update. -/
theorem applyUpdate_fields (now : String)
    (title description priority status due_date : Option String)
    (t : Task) :
    applyUpdate now title description priority status due_date t =
      { title := match title with
          | some s => pyStrip s
          | none => t.title
        description := match description with
          | some s => pyStrip s
          | none => t.description
        priority := priority.getD t.priority
        status := status.getD t.status
        due_date := match due_date with
          | some s => some s
          | none => t.due_date
        task_id := t.task_id
        created_at := t.created_at
        updated_at := now } := by
  cases title <;> cases description <;> cases priority <;> cases status <;>
    cases due_date <;> rfl

/-- The update path never touches `task_id`. -/
theorem applyUpdate_task_id (now : String)
    (title description priority status due_date : Option String)
    (t : Task) :
    (applyUpdate now title description priority status due_date t).task_id =
      t.task_id := by
  rw [applyUpdate_fields]

/-- Members of `updateFirst p f l` come from `l`, directly or through
`f`. -/
theorem mem_updateFirst {p : Task → Bool} {f : Task → Task} :
    ∀ {l : List Task} {x : Task}, x ∈ updateFirst p f l →
      x ∈ l ∨ ∃ u ∈ l, x = f u := by
  intro l
  induction l with
  | nil =>
      intro x hx
      cases hx
  | cons a l ih =>
      intro x hx
      unfold updateFirst at hx
      by_cases ha : p a = true
      · rw [if_pos ha] at hx
        rcases List.mem_cons.mp hx with rfl | hx
        · exact Or.inr ⟨a, List.mem_cons_self a l, rfl⟩
        · exact Or.inl (List.mem_cons_of_mem _ hx)
      · rw [if_neg ha] at hx
        rcases List.mem_cons.mp hx with rfl | hx
        · exact Or.inl (List.mem_cons_self x l)
        · rcases ih hx with h | ⟨u, hu, rfl⟩
          · exact Or.inl (List.mem_cons_of_mem _ h)
          · exact Or.inr ⟨u, List.mem_cons_of_mem _ hu, rfl⟩

/-- Behaviour of `update_task` when the lookup succeeds. -/
theorem update_task_found (now : String) (m : TaskManager) (id : Int)
    (title description priority status due_date : Option String)
    (t : Task) (hget : m.get_task id = some t) :
    m.update_task now id title description priority status due_date =
      (true,
       { m with
         tasks :=
           updateFirst (fun u => u.task_id == some id)
             (applyUpdate now title description priority status due_date)
             m.tasks },
       true) := by
  unfold TaskManager.update_task
  rw [hget]

/-- Behaviour of `delete_task` when the lookup succeeds. -/
theorem delete_task_found (m : TaskManager) (id : Int) (t : Task)
    (hget : m.get_task id = some t) :
    m.delete_task id =
      (true,
       { m with tasks := m.tasks.eraseP (fun u => u.task_id == some id) },
       true) := by
  unfold TaskManager.delete_task
  rw [hget]

/-- Unfolding `goodIds` into its membership statement. -/
theorem goodIds_iff {m : TaskManager} :
    goodIds m = true ↔
      ∀ t ∈ m.tasks, ∀ i : Int, t.task_id = some i → i < m.next_id := by
  unfold goodIds
  rw [List.all_eq_true]
  constructor
  · intro h t ht i hi
    have hpt := h t ht
    rw [hi] at hpt
    simpa using hpt
  · intro h t ht
    cases hid : t.task_id with
    | none => simp
    | some i => simpa using h t ht i hid

/-- Deleting preserves the id bound. -/
theorem goodIds_delete (m : TaskManager) (id : Int)
    (hg : goodIds m = true) : goodIds (m.delete_task id).2.1 = true := by
  rcases hfind : m.get_task id with _ | t
  · unfold TaskManager.delete_task
    rw [hfind]
    simpa using hg
  · rw [delete_task_found m id t hfind]
    rw [goodIds_iff] at hg ⊢
    intro u hu i hi
    exact hg u (List.mem_of_mem_eraseP hu) i hi

/-- Updating preserves the id bound (the update path never writes
`task_id` or `next_id`). -/
theorem goodIds_update (now : String) (m : TaskManager) (id : Int)
    (title description priority status due_date : Option String)
    (hg : goodIds m = true) :
    goodIds (m.update_task now id title description priority status
      due_date).2.1 = true := by
  rcases hfind : m.get_task id with _ | t
  · unfold TaskManager.update_task
    rw [hfind]
    simpa using hg
  · rw [update_task_found now m id title description priority status
      due_date t hfind]
    rw [goodIds_iff] at hg ⊢
    intro u hu i hi
    rcases mem_updateFirst hu with hmem | ⟨v, hv, rfl⟩
    · exact hg u hmem i hi
    · rw [applyUpdate_task_id] at hi
      exact hg v hv i hi

/-- Behaviour of `add_task` on a valid title. -/
theorem add_task_ok (now : String) (m : TaskManager)
    (title description priority : String) (due_date : Option String)
    (h : pyStrip title ≠ "") :
    m.add_task now title description priority due_date =
      .ok ({ title := pyStrip title, description := pyStrip description,
             priority := priority, status := "todo", due_date := due_date,
             task_id := some m.next_id, created_at := now,
             updated_at := now },
           { tasks := m.tasks ++
               [{ title := pyStrip title,
                  description := pyStrip description,
                  priority := priority, status := "todo",
                  due_date := due_date, task_id := some m.next_id,
                  created_at := now, updated_at := now }],
             next_id := m.next_id + 1 }) := by
  simp [TaskManager.add_task, Task.init, h]

/-- Sequential adds: each add consumes the current `next_id`, so the new
ids form the contiguous block starting at the initial `next_id`. -/
theorem addAll_ok (now : String) :
    ∀ (titles : List String) (m : TaskManager),
      (∀ s ∈ titles, pyStrip s ≠ "") →
      ∃ m', m.addAll now titles = .ok m' ∧
        m'.next_id = m.next_id + titles.length ∧
        m'.tasks.map Task.task_id =
          m.tasks.map Task.task_id ++
            (List.range titles.length).map
              (fun i : Nat => some (m.next_id + (i : Int))) := by
  intro titles
  induction titles with
  | nil =>
      intro m _
      exact ⟨m, rfl, by simp, by simp⟩
  | cons s rest ih =>
      intro m h
      have hs : pyStrip s ≠ "" := h s (List.mem_cons_self s rest)
      have hadd := add_task_ok now m s "" "medium" none hs
      rcases ih
          ⟨m.tasks ++ [⟨pyStrip s, pyStrip "", "medium", "todo", none,
              some m.next_id, now, now⟩], m.next_id + 1⟩
          (fun u hu => h u (List.mem_cons_of_mem _ hu)) with
        ⟨m', hm', hnext, hmap⟩
      refine ⟨m', ?_, ?_, ?_⟩
      · unfold TaskManager.addAll
        rw [hadd]
        simpa [bind, Except.bind] using hm'
      · rw [hnext]
        simp only [List.length_cons]
        push_cast
        omega
      · rw [hmap]
        simp only [List.map_append, List.map_cons, List.map_nil,
          List.length_cons, List.append_assoc]
        congr 1
        rw [List.singleton_append, List.range_succ_eq_map, List.map_cons,
          List.map_map]
        congr 1
        · norm_num
        · apply List.map_congr_left
          intro i _
          simp only [Function.comp_apply, Nat.succ_eq_add_one]
          congr 1
          push_cast
          ring

/-! ## Theorems -/

/-- C1: `is_overdue()` returns false when `due_date` is absent, false
when the due date cannot be parsed, and otherwise true iff the parsed
due date is strictly before the current time and the status is not
`completed`; in particular a past-due task with status `cancelled` is
reported overdue.  (The hypothesis `parse "" = none` records that no
real date parser accepts the empty string, which Python short-circuits
away via the falsiness of `""`.) -/
theorem C1_is_overdue_spec (parse : String → Option Int) (now : Int)
    (t : Task) (hparse : parse "" = none) :
    (t.due_date = none → t.is_overdue parse now = false) ∧
    (∀ s, t.due_date = some s → parse s = none →
      t.is_overdue parse now = false) ∧
    (∀ s d, t.due_date = some s → parse s = some d →
      (t.is_overdue parse now = true ↔ d < now ∧ t.status ≠ "completed")) ∧
    (∀ s d, t.status = "cancelled" → t.due_date = some s →
      parse s = some d → d < now → t.is_overdue parse now = true) := by
  refine ⟨?_, ?_, ?_, ?_⟩
  · intro h
    simp [Task.is_overdue, h]
  · intro s hs hp
    simp only [Task.is_overdue, hs]
    split_ifs with h
    · rfl
    · rw [hp]
  · intro s d hs hp
    have hne : s ≠ "" := by
      intro h
      rw [h, hparse] at hp
      exact Option.noConfusion hp
    simp only [Task.is_overdue, hs]
    rw [if_neg hne, hp]
    simp [decide_eq_true_iff]
  · intro s d hst hs hp hd
    have hne : s ≠ "" := by
      intro h
      rw [h, hparse] at hp
      exact Option.noConfusion hp
    simp only [Task.is_overdue, hs]
    rw [if_neg hne, hp]
    simp [hst, hd]

/-- Witness for C1 at a concrete parse function, time and task (a
past-due cancelled task is overdue). -/
theorem C1_is_overdue_spec_witness :
    Task.is_overdue (fun s => if s = "d" then some 0 else none) 1
      { title := "t", description := "", priority := "medium",
        status := "cancelled", due_date := some "d", task_id := none,
        created_at := "c", updated_at := "c" } = true :=
  (C1_is_overdue_spec (fun s => if s = "d" then some 0 else none) 1
      { title := "t", description := "", priority := "medium",
        status := "cancelled", due_date := some "d", task_id := none,
        created_at := "c", updated_at := "c" }
      (by decide)).2.2.2 "d" 0 rfl rfl (by decide) (by decide)

/-- C6: constructing a Task succeeds for every title whose trimmed value
is non-empty, with `title`/`description` trimmed and
`created_at = updated_at`; an empty-after-trimming title fails with the
validation error. -/
theorem C6_task_construction (now title description priority status :
    String) (due_date : Option String) (task_id : Option Int) :
    (pyStrip title ≠ "" →
      Task.init now title description priority status due_date task_id =
        .ok { title := pyStrip title, description := pyStrip description,
              priority := priority, status := status, due_date := due_date,
              task_id := task_id, created_at := now, updated_at := now }) ∧
    (pyStrip title = "" →
      Task.init now title description priority status due_date task_id =
        .error .validationError) := by
  constructor
  · intro h
    simp [Task.init, h]
  · intro h
    simp [Task.init, h]

/-- Witness for C6: a padded title is accepted and trimmed; an
all-whitespace title is rejected. -/
theorem C6_task_construction_witness :
    Task.init "n" "  a  " " d " "high" "todo" none none =
      .ok { title := "a", description := "d", priority := "high",
            status := "todo", due_date := none, task_id := none,
            created_at := "n", updated_at := "n" } ∧
    Task.init "n" "   " "" "medium" "todo" none none =
      .error .validationError :=
  ⟨(C6_task_construction "n" "  a  " " d " "high" "todo" none none).1
      (by decide),
   (C6_task_construction "n" "   " "" "medium" "todo" none none).2
      (by decide)⟩

/-- C9: constructing a store over a missing backing file yields the
empty collection with `next_id = 1`; over a malformed document the parse
error propagates (no default-to-empty fallback). -/
theorem C9_store_construction (now : String) :
    TaskManager.init now .missing = .ok { tasks := [], next_id := 1 } ∧
    TaskManager.init now .malformed = .error .parseError :=
  ⟨rfl, rfl⟩

/-- C10: an empty-string status or priority filter is skipped exactly
like an omitted one (Python truthiness), so `list` returns the full
collection in insertion order, and a task whose status or priority is
the empty string is never selected by an applied exact-match filter. -/
theorem C10_empty_string_filters (m : TaskManager) :
    (∀ p, m.list_tasks (some "") p = m.list_tasks none p) ∧
    (∀ s, m.list_tasks s (some "") = m.list_tasks s none) ∧
    m.list_tasks none none = m.tasks ∧
    m.list_tasks (some "") (some "") = m.tasks ∧
    (∀ s t, s ≠ "" → t.status = "" → t ∉ m.list_tasks (some s) none) ∧
    (∀ p t, p ≠ "" → t.priority = "" → t ∉ m.list_tasks none (some p)) := by
  refine ⟨fun p => rfl, fun s => rfl, rfl, rfl, ?_, ?_⟩
  · intro s t hs ht hmem
    simp only [TaskManager.list_tasks, if_neg hs] at hmem
    rcases List.mem_filter.mp hmem with ⟨-, heq⟩
    exact hs ((ht.symm.trans (eq_of_beq heq)).symm)
  · intro p t hp ht hmem
    simp only [TaskManager.list_tasks, if_neg hp] at hmem
    rcases List.mem_filter.mp hmem with ⟨-, heq⟩
    exact hp ((ht.symm.trans (eq_of_beq heq)).symm)

/-- Witness for C10: a store with one empty-status, empty-priority task;
the task appears in unfiltered listings but no `todo`/`high` filter
selects it. -/
theorem C10_empty_string_filters_witness :
    ({ title := "t", description := "", priority := "", status := "",
       due_date := none, task_id := some 1, created_at := "c",
       updated_at := "c" } : Task) ∉
      TaskManager.list_tasks
        { tasks := [{ title := "t", description := "", priority := "",
                      status := "", due_date := none, task_id := some 1,
                      created_at := "c", updated_at := "c" }],
          next_id := 2 } (some "todo") none :=
  (C10_empty_string_filters
      { tasks := [{ title := "t", description := "", priority := "",
                    status := "", due_date := none, task_id := some 1,
                    created_at := "c", updated_at := "c" }],
        next_id := 2 }).2.2.2.2.1 "todo"
    { title := "t", description := "", priority := "", status := "",
      due_date := none, task_id := some 1, created_at := "c",
      updated_at := "c" } (by decide) rfl

/-- C4: updating an id carried by no task returns false, leaves the
state (tasks and `next_id`) unchanged, and never reaches the save. -/
theorem C4_update_missing_id (now : String) (m : TaskManager) (id : Int)
    (title description priority status due_date : Option String)
    (h : ∀ t ∈ m.tasks, t.task_id ≠ some id) :
    m.update_task now id title description priority status due_date =
      (false, m, false) := by
  have hfind : m.tasks.find? (fun t => t.task_id == some id) = none := by
    apply List.find?_eq_none.mpr
    intro t ht
    simp [h t ht]
  simp [TaskManager.update_task, TaskManager.get_task, hfind]

/-- Witness for C4: a one-task store and an id it does not carry. -/
theorem C4_update_missing_id_witness :
    TaskManager.update_task "n"
      { tasks := [{ title := "t", description := "", priority := "medium",
                    status := "todo", due_date := none, task_id := some 1,
                    created_at := "c", updated_at := "c" }],
        next_id := 2 } 7 (some "x") none none none none =
      (false,
       { tasks := [{ title := "t", description := "", priority := "medium",
                     status := "todo", due_date := none, task_id := some 1,
                     created_at := "c", updated_at := "c" }],
         next_id := 2 }, false) :=
  C4_update_missing_id "n"
    { tasks := [{ title := "t", description := "", priority := "medium",
                  status := "todo", due_date := none, task_id := some 1,
                  created_at := "c", updated_at := "c" }],
      next_id := 2 } 7 (some "x") none none none none (by decide)

/-- C8: serialization yields the flat mapping with exactly the eight
task keys in order; deserialization of a mapping holding only the
required title applies the construction defaults (timestamps from the
construction clock), and any `created_at`/`updated_at` present in the
input overwrite the construction-time timestamps. -/
theorem C8_serialization_shape (t : Task) (now s ca ua : String) :
    (t.to_dict.map Prod.fst =
      ["task_id", "title", "description", "priority", "status",
       "due_date", "created_at", "updated_at"]) ∧
    (pyStrip s ≠ "" →
      Task.from_dict now [("title", .vStr s)] =
        .ok { title := pyStrip s, description := "", priority := "medium",
              status := "todo", due_date := none, task_id := none,
              created_at := now, updated_at := now }) ∧
    (pyStrip s ≠ "" →
      Task.from_dict now
          [("title", .vStr s), ("created_at", .vStr ca),
           ("updated_at", .vStr ua)] =
        .ok { title := pyStrip s, description := "", priority := "medium",
              status := "todo", due_date := none, task_id := none,
              created_at := ca, updated_at := ua }) := by
  refine ⟨rfl, ?_, ?_⟩
  · intro h
    simp [Task.from_dict, getStr, getStrD, getOptStr, getOptInt, dget,
      Task.init, h, List.find?, bind, Except.bind, pyStrip_empty]
  · intro h
    simp [Task.from_dict, getStr, getStrD, getOptStr, getOptInt, dget,
      Task.init, h, List.find?, bind, Except.bind, pyStrip_empty]

/-- Witness for C8 at a concrete padded title and concrete timestamps. -/
theorem C8_serialization_shape_witness :
    Task.from_dict "n" [("title", .vStr " a "), ("created_at", .vStr "c0"),
        ("updated_at", .vStr "u0")] =
      .ok { title := "a", description := "", priority := "medium",
            status := "todo", due_date := none, task_id := none,
            created_at := "c0", updated_at := "u0" } :=
  (C8_serialization_shape
      { title := "a", description := "", priority := "medium",
        status := "todo", due_date := none, task_id := none,
        created_at := "c0", updated_at := "u0" }
      "n" " a " "c0" "u0").2.2 (by decide)

/-- C5: updating an id carried by some task returns true and persists;
the first task carrying the id has exactly the provided fields
overwritten (title and description stripped on write), `updated_at`
refreshed to the current time, `task_id` and `created_at` (and every
omitted field) untouched, while every other task and `next_id` are
unchanged. -/
theorem C5_update_existing_frame (now : String) (m : TaskManager)
    (id : Int) (title description priority status due_date : Option String)
    (h : ∃ t ∈ m.tasks, t.task_id = some id) :
    ∃ pre t post,
      m.tasks = pre ++ t :: post ∧
      (∀ u ∈ pre, u.task_id ≠ some id) ∧ t.task_id = some id ∧
      m.update_task now id title description priority status due_date =
        (true,
         { tasks := pre ++
             { title := match title with
                 | some s => pyStrip s
                 | none => t.title
               description := match description with
                 | some s => pyStrip s
                 | none => t.description
               priority := priority.getD t.priority
               status := status.getD t.status
               due_date := match due_date with
                 | some s => some s
                 | none => t.due_date
               task_id := t.task_id
               created_at := t.created_at
               updated_at := now } :: post,
           next_id := m.next_id },
         true) := by
  have h' : ∃ t ∈ m.tasks, (fun u => u.task_id == some id) t = true := by
    rcases h with ⟨t, ht, hid⟩
    exact ⟨t, ht, by simp [hid]⟩
  rcases firstMatch_decomp (fun u => u.task_id == some id)
      (applyUpdate now title description priority status due_date)
      m.tasks h' with ⟨pre, t, post, hl, hpre, hpt, hfind, hupd, -⟩
  refine ⟨pre, t, post, hl, ?_, by simpa using hpt, ?_⟩
  · intro u hu
    simpa using hpre u hu
  · rw [update_task_found now m id title description priority status
      due_date t hfind, hupd, applyUpdate_fields]

/-- Witness for C5: update priority and status of the only task of a
one-task store. -/
theorem C5_update_existing_frame_witness :
    ∃ pre t post,
      ([{ title := "t", description := "d", priority := "medium",
          status := "todo", due_date := none, task_id := some 1,
          created_at := "c", updated_at := "c" }] : List Task) =
        pre ++ t :: post ∧
      (∀ u ∈ pre, u.task_id ≠ some 1) ∧ t.task_id = some 1 ∧
      TaskManager.update_task "n"
          { tasks := [{ title := "t", description := "d",
                        priority := "medium", status := "todo",
                        due_date := none, task_id := some 1,
                        created_at := "c", updated_at := "c" }],
            next_id := 2 } 1 none none (some "high") (some "completed")
          none =
        (true,
         { tasks := pre ++
             { title := match (none : Option String) with
                 | some s => pyStrip s
                 | none => t.title
               description := match (none : Option String) with
                 | some s => pyStrip s
                 | none => t.description
               priority := (some "high").getD t.priority
               status := (some "completed").getD t.status
               due_date := match (none : Option String) with
                 | some s => some s
                 | none => t.due_date
               task_id := t.task_id
               created_at := t.created_at
               updated_at := "n" } :: post,
           next_id := 2 },
         true) :=
  C5_update_existing_frame "n"
    { tasks := [{ title := "t", description := "d", priority := "medium",
                  status := "todo", due_date := none, task_id := some 1,
                  created_at := "c", updated_at := "c" }],
      next_id := 2 } 1 none none (some "high") (some "completed") none
    (by decide)

/-- C7: the update path does not re-run the non-empty-title check: on an
id carried by some task, an all-whitespace title is accepted (the call
returns true) and the task's title becomes the stripped, empty string. -/
theorem C7_update_skips_title_validation (now : String) (m : TaskManager)
    (id : Int) (h : ∃ t ∈ m.tasks, t.task_id = some id)
    (s : String) (hs : pyStrip s = "") :
    (m.update_task now id (some s)).1 = true ∧
    ∃ t' ∈ (m.update_task now id (some s)).2.1.tasks,
      t'.task_id = some id ∧ t'.title = "" := by
  have h' : ∃ t ∈ m.tasks, (fun u => u.task_id == some id) t = true := by
    rcases h with ⟨t, ht, hid⟩
    exact ⟨t, ht, by simp [hid]⟩
  rcases firstMatch_decomp (fun u => u.task_id == some id)
      (applyUpdate now (some s) none none none none)
      m.tasks h' with ⟨pre, t, post, hl, hpre, hpt, hfind, hupd, -⟩
  rw [update_task_found now m id (some s) none none none none t hfind]
  refine ⟨rfl, applyUpdate now (some s) none none none none t, ?_, ?_, ?_⟩
  · rw [hupd]
    exact List.mem_append.mpr (Or.inr (List.mem_cons_self _ _))
  · rw [applyUpdate_task_id]
    simpa using hpt
  · rw [applyUpdate_fields]
    exact hs

/-- Witness for C7: blanking the title of the only task of a one-task
store succeeds. -/
theorem C7_update_skips_title_validation_witness :
    (TaskManager.update_task "n"
        { tasks := [{ title := "t", description := "", priority := "medium",
                      status := "todo", due_date := none, task_id := some 1,
                      created_at := "c", updated_at := "c" }],
          next_id := 2 } 1 (some "   ")).1 = true ∧
    ∃ t' ∈ (TaskManager.update_task "n"
        { tasks := [{ title := "t", description := "", priority := "medium",
                      status := "todo", due_date := none, task_id := some 1,
                      created_at := "c", updated_at := "c" }],
          next_id := 2 } 1 (some "   ")).2.1.tasks,
      t'.task_id = some 1 ∧ t'.title = "" :=
  C7_update_skips_title_validation "n"
    { tasks := [{ title := "t", description := "", priority := "medium",
                  status := "todo", due_date := none, task_id := some 1,
                  created_at := "c", updated_at := "c" }],
      next_id := 2 } 1 (by decide) "   " (by decide)

/-- C2: `next_id` starts at 1 and is incremented by exactly 1 on each
add, which stamps the created task with the pre-increment counter, so N
sequential adds from the empty store assign ids 1..N in insertion
order; the id bound `goodIds` holds initially and is preserved by every
operation, and deleting a task never touches `next_id`, so the add that
follows a delete can never reassign the deleted identifier. -/
theorem C2_identifier_allocation (now : String) :
    emptyManager.next_id = 1 ∧
    goodIds emptyManager = true ∧
    (∀ (m : TaskManager) (title : String), pyStrip title ≠ "" →
      ∃ t m', m.add_task now title = .ok (t, m') ∧
        t.task_id = some m.next_id ∧ m'.next_id = m.next_id + 1 ∧
        m'.tasks = m.tasks ++ [t] ∧
        (goodIds m = true → goodIds m' = true)) ∧
    (∀ (m : TaskManager) (id : Int)
        (title description priority status due_date : Option String),
      goodIds m = true →
      goodIds (m.update_task now id title description priority status
        due_date).2.1 = true) ∧
    (∀ titles : List String, (∀ s ∈ titles, pyStrip s ≠ "") →
      ∃ m', emptyManager.addAll now titles = .ok m' ∧
        m'.next_id = titles.length + 1 ∧
        m'.tasks.map Task.task_id =
          (List.range titles.length).map
            (fun i : Nat => some ((i : Int) + 1))) ∧
    (∀ (m : TaskManager) (id : Int), goodIds m = true →
      (∃ t ∈ m.tasks, t.task_id = some id) →
      (m.delete_task id).1 = true ∧
      (m.delete_task id).2.1.next_id = m.next_id ∧
      goodIds (m.delete_task id).2.1 = true ∧
      ∀ title : String, pyStrip title ≠ "" →
        ∃ t₂ m₂, (m.delete_task id).2.1.add_task now title =
            .ok (t₂, m₂) ∧ t₂.task_id ≠ some id) := by
  refine ⟨rfl, rfl, ?_, ?_, ?_, ?_⟩
  · intro m title h
    refine ⟨_, _, add_task_ok now m title "" "medium" none h, rfl, rfl,
      rfl, ?_⟩
    intro hg
    rw [goodIds_iff] at hg ⊢
    intro u hu i hi
    rcases List.mem_append.mp hu with hu | hu
    · have := hg u hu i hi
      show i < m.next_id + 1
      omega
    · rcases List.mem_singleton.mp hu with rfl
      have h' : m.next_id = i := by
        simpa using hi
      show i < m.next_id + 1
      omega
  · intro m id title description priority status due_date hg
    exact goodIds_update now m id title description priority status
      due_date hg
  · intro titles h
    rcases addAll_ok now titles emptyManager h with ⟨m', hm', hnext, hmap⟩
    refine ⟨m', hm', ?_, ?_⟩
    · rw [hnext]
      show (1 : Int) + titles.length = titles.length + 1
      omega
    · rw [hmap]
      show (List.range titles.length).map
          (fun i : Nat => some ((1 : Int) + i)) = _
      apply List.map_congr_left
      intro i _
      congr 1
      omega
  · intro m id hg hmem
    have h' : ∃ t ∈ m.tasks, (fun u => u.task_id == some id) t = true := by
      rcases hmem with ⟨t, ht, hid⟩
      exact ⟨t, ht, by simp [hid]⟩
    rcases firstMatch_decomp (fun u => u.task_id == some id) (fun u => u)
        m.tasks h' with ⟨pre, t, post, hl, hpre, hpt, hfind, -, -⟩
    have hdel := delete_task_found m id t hfind
    rcases hmem with ⟨t0, ht0, hid0⟩
    have hlt : id < m.next_id := (goodIds_iff.mp hg) t0 ht0 id hid0
    refine ⟨by rw [hdel], by rw [hdel], goodIds_delete m id hg, ?_⟩
    intro title hti
    refine ⟨_, _, add_task_ok now (m.delete_task id).2.1 title "" "medium"
      none hti, ?_⟩
    rw [hdel]
    simp only [Option.some.injEq, ne_eq]
    intro hcontra
    omega

/-- Witness for C2: two sequential adds from the empty store assign ids
1 and 2; deleting id 1 from a two-task store and adding again assigns a
fresh id distinct from 1. -/
theorem C2_identifier_allocation_witness :
    (∃ m', emptyManager.addAll "n" ["a", "b"] = .ok m' ∧
      m'.next_id = ([ "a", "b" ] : List String).length + 1 ∧
      m'.tasks.map Task.task_id =
        (List.range ([ "a", "b" ] : List String).length).map
          (fun i : Nat => some ((i : Int) + 1))) ∧
    (TaskManager.delete_task
        { tasks := [⟨"a", "", "medium", "todo", none, some 1, "c", "c"⟩,
                    ⟨"b", "", "medium", "todo", none, some 2, "c", "c"⟩],
          next_id := 3 } 1).1 = true ∧
    (∃ t₂ m₂,
      (TaskManager.delete_task
          { tasks := [⟨"a", "", "medium", "todo", none, some 1, "c", "c"⟩,
                      ⟨"b", "", "medium", "todo", none, some 2, "c", "c"⟩],
            next_id := 3 } 1).2.1.add_task "n" "c2" = .ok (t₂, m₂) ∧
      t₂.task_id ≠ some 1) :=
  have hdel := (C2_identifier_allocation "n").2.2.2.2.2
    { tasks := [⟨"a", "", "medium", "todo", none, some 1, "c", "c"⟩,
                ⟨"b", "", "medium", "todo", none, some 2, "c", "c"⟩],
      next_id := 3 } 1 (by decide) (by decide)
  ⟨(C2_identifier_allocation "n").2.2.2.2.1 ["a", "b"] (by decide),
   hdel.1, hdel.2.2.2 "c2" (by decide)⟩

/-- Deserializing a serialized task restores it exactly when the stored
title is non-empty and title and description carry no surrounding
whitespace (true of everything the API writes, except for titles blanked
through the update path). -/
theorem from_dict_to_dict (now : String) (t : Task)
    (h1 : t.title ≠ "") (h2 : pyStrip t.title = t.title)
    (h3 : pyStrip t.description = t.description) :
    Task.from_dict now t.to_dict = .ok t := by
  obtain ⟨tt, td, tp, tst, tdd, tid, tca, tua⟩ := t
  dsimp only at h1 h2 h3
  have hne : pyStrip tt ≠ "" := by
    rw [h2]
    exact h1
  cases tdd <;> cases tid <;>
    simp [Task.from_dict, Task.to_dict, getStr, getStrD, getOptStr,
      getOptInt, dget, Task.init, bind, Except.bind, List.find?,
      hne, h1, h2, h3]

/-- Loading back a serialized task list restores it elementwise. -/
theorem loadTasks_map_to_dict (now : String) :
    ∀ l : List Task,
      (∀ t ∈ l, t.title ≠ "" ∧ pyStrip t.title = t.title ∧
        pyStrip t.description = t.description) →
      loadTasks now (l.map Task.to_dict) = .ok l := by
  intro l
  induction l with
  | nil =>
      intro _
      rfl
  | cons t ts ih =>
      intro h
      have ht := h t (List.mem_cons_self t ts)
      have hts := fun u hu => h u (List.mem_cons_of_mem _ hu)
      rw [List.map_cons]
      show loadTasks now (t.to_dict :: ts.map Task.to_dict) = .ok (t :: ts)
      rw [loadTasks, from_dict_to_dict now t ht.1 ht.2.1 ht.2.2, ih hts]
      rfl

/-- C3 (amended): for every store whose tasks all carry a non-empty
title and whose title and description fields are already stripped,
saving and re-loading restores the task sequence exactly — field
contents, order and `created_at`/`updated_at` timestamps — and
preserves `next_id`. -/
theorem C3_roundtrip_amended (now : String) (m : TaskManager)
    (h : ∀ t ∈ m.tasks, t.title ≠ "" ∧ pyStrip t.title = t.title ∧
      pyStrip t.description = t.description) :
    SaveData.load now m.save_data = .ok m := by
  unfold SaveData.load TaskManager.save_data
  rw [loadTasks_map_to_dict now m.tasks h]
  rfl

/-- Witness for the amended C3 at a concrete one-task store. -/
theorem C3_roundtrip_amended_witness :
    SaveData.load "n" (TaskManager.save_data
        ⟨[⟨"a", "d", "high", "todo", some "2025-01-01", some 1,
          "c0", "u0"⟩], 2⟩) =
      .ok ⟨[⟨"a", "d", "high", "todo", some "2025-01-01", some 1,
        "c0", "u0"⟩], 2⟩ :=
  C3_roundtrip_amended "n"
    ⟨[⟨"a", "d", "high", "todo", some "2025-01-01", some 1,
      "c0", "u0"⟩], 2⟩ (by decide)

/-- C3 counterexample: the round-trip equality does not hold for every
store.  `blankedTitleStore`, reached through `add` followed by `update`
with an all-whitespace title, saves a task whose title is the empty
string, and re-loading it raises the construction-time validation error
instead of returning the store; `untrimmedTitleStore` re-loads without
error but with its title silently re-stripped, so the loaded store
differs from the saved one. -/
theorem C3_roundtrip_counterexample :
    blankedTitleStore.tasks.map Task.title = [""] ∧
    SaveData.load "t2" blankedTitleStore.save_data =
      .error .validationError ∧
    SaveData.load "t2" untrimmedTitleStore.save_data ≠
      .ok untrimmedTitleStore := by
  refine ⟨rfl, rfl, ?_⟩
  intro hcontra
  have h1 : SaveData.load "t2" untrimmedTitleStore.save_data =
      .ok ⟨[⟨"a", "", "medium", "todo", none, some 1, "c", "c"⟩], 2⟩ := rfl
  rw [h1] at hcontra
  have h2 := Except.ok.inj hcontra
  have h3 := congrArg (fun st => st.tasks.map Task.title) h2
  exact absurd h3 (by decide)

end TaskCli
